import Mathlib

set_option maxRecDepth 4000

/-!
Shallow embedding of the People Registry (LocalStorage) core:
the `Person` record model with its field validators (src/js/models/Person.js),
the `DataManager` storage layer (src/js/managers/DataManager.js) and the
`DataBackup` utility (src/js/utils/DataBackup.js), together with theorems
settling the specification claims about them.

Modelling conventions:
- JS strings are Lean `String`s; `Char` operations model the corresponding
  ASCII behaviour of the JS runtime primitives.
- Timestamps (`new Date()` values) are modelled as `Nat` epoch milliseconds;
  "now" and freshly generated ids are threaded explicitly through an `Env`
  since the JS code obtains them from the ambient runtime.
- `localStorage.setItem` may throw (quota exceeded or generic failure); this
  is modelled by the `setItemFail` field of `Env`.
- Fallible JS methods (throwing `AppError`) return `Except AppError` results;
  methods that mutate `this` before a potential throw return the mutated
  state next to the outcome, exactly as a JS caller would observe it.
-/

namespace PeopleRegistry

/-! ## JS runtime primitives -/

/-- Models `String.prototype.toUpperCase` (exact on ASCII; the identity on
other code points, which suffices for every input considered here). -/
def jsToUpper (s : String) : String := ⟨s.data.map Char.toUpper⟩

/-- Models `String.prototype.toLowerCase` (exact on ASCII). -/
def jsToLower (s : String) : String := ⟨s.data.map Char.toLower⟩

/-- Models `String.prototype.trim`: strip leading and trailing whitespace. -/
def trimChars (cs : List Char) : List Char :=
  ((cs.dropWhile Char.isWhitespace).reverse.dropWhile Char.isWhitespace).reverse

/-- Value of a list of decimal digit characters, as computed by
`parseInt(str, 10)` on an all-digit string. -/
def digitsToNat (cs : List Char) : Nat :=
  cs.foldl (fun n c => n * 10 + (c.toNat - 48)) 0

/-- Splits a character list at every occurrence of `sep` (auxiliary). -/
def splitOnCharAux (sep : Char) : List Char → List Char → List (List Char)
  | acc, [] => [acc.reverse]
  | acc, c :: cs =>
    if c == sep then acc.reverse :: splitOnCharAux sep [] cs
    else splitOnCharAux sep (c :: acc) cs

/-- Splits a character list at every occurrence of `sep`. -/
def splitOnChar (sep : Char) (cs : List Char) : List (List Char) :=
  splitOnCharAux sep [] cs

/-- Does `needle` start `hay`? One anchor position of a JS substring scan. -/
def startsWithSeq : List Char → List Char → Bool
  | [], _ => true
  | _ :: _, [] => false
  | n :: ns, h :: hs => n == h && startsWithSeq ns hs

/-- Models `String.prototype.includes`: does `needle` occur contiguously
inside `hay`? -/
def containsSeq (needle hay : List Char) : Bool :=
  hay.tails.any (fun t => startsWithSeq needle t)

/-- One step of the DataBackup checksum loop:
`hash = (hash << 5) - hash + charCode; hash = hash & hash`.
The JS signed 32-bit value is carried in its unsigned two's-complement
encoding (a `Nat` below `2^32`): `<< 5` is multiplication wrapped to 32
bits, and subtracting the previous hash adds `2^32 - hash` modulo `2^32`. -/
def checksumStep (hash : Nat) (c : Char) : Nat :=
  (hash * 32 % 2 ^ 32 + 2 ^ 32 - hash + c.toNat) % 2 ^ 32

/-- Hexadecimal rendering of a natural number, lowercase digits, as produced
by JS `Number.prototype.toString(16)` on a non-negative integer. -/
def natHex (n : Nat) : String := ⟨Nat.toDigits 16 n⟩

/-- `DataBackup.calculateChecksum` applied to an already-serialized string:
the 32-bit rolling hash over the character sequence, rendered by
`toString(16)` — a hash with the sign bit set is a negative signed value and
renders as a minus sign followed by the hex digits of its absolute value. -/
def calculateChecksumStr (s : String) : String :=
  let h := s.toList.foldl checksumStep 0
  if h < 2 ^ 31 then natHex h else "-" ++ natHex (2 ^ 32 - h)

/-! ## Calendar dates (model of the JS `Date` values used by the code) -/

/-- A calendar date as observed through `getFullYear` / `getMonth + 1` /
`getDate` on a JS `Date` constructed at local midnight. -/
structure SimpleDate where
  year : Nat
  month : Nat
  day : Nat
deriving DecidableEq, Repr

/-- Gregorian leap-year rule, as implemented by the JS `Date` engine. -/
def isLeapYear (y : Nat) : Bool :=
  (y % 4 == 0 && y % 100 != 0) || y % 400 == 0

/-- Number of days in a month (1-12) of year `y`, per the JS `Date` engine. -/
def daysInMonth (y m : Nat) : Nat :=
  if m == 1 then 31
  else if m == 2 then (if isLeapYear y then 29 else 28)
  else if m == 3 then 31
  else if m == 4 then 30
  else if m == 5 then 31
  else if m == 6 then 30
  else if m == 7 then 31
  else if m == 8 then 31
  else if m == 9 then 30
  else if m == 10 then 31
  else if m == 11 then 30
  else 31

/-- Models `new Date(year, month - 1, day)` on the inputs that
`parseBrazilianDate` feeds it (1 ≤ month ≤ 12, 1 ≤ day ≤ 31,
1900 ≤ year ≤ 2100): a day past the end of the month overflows into the
following month, exactly the JS normalization on this domain. -/
def jsMakeDate (y m d : Nat) : SimpleDate :=
  if d ≤ daysInMonth y m then ⟨y, m, d⟩
  else if m = 12 then ⟨y + 1, 1, d - daysInMonth y m⟩
  else ⟨y, m + 1, d - daysInMonth y m⟩

/-- Strict comparison of calendar dates, `a` after `b`. This models
`birthDate > today` in JS: `birthDate` is at local midnight and `today`
carries a non-negative time of day, so the millisecond comparison is strict
lexicographic comparison of the calendar components. -/
def dateAfter (a b : SimpleDate) : Bool :=
  a.year > b.year ||
    (a.year == b.year &&
      (a.month > b.month || (a.month == b.month && a.day > b.day)))

/-! ## Person field validators (Person.js statics) -/

/-- `Person.validateName`: trimmed length in [2,50] and only letters, spaces,
hyphens and apostrophes (`\p{L}` restricted to the model's `Char.isAlpha`;
every name occurring in the claims is ASCII). -/
def validateName (s : String) : Bool :=
  if s = "" then false
  else
    let t := trimChars s.toList
    if t.length < 2 || t.length > 50 then false
    else t.all (fun c =>
      c.isAlpha || c.isWhitespace || c == '-' || c.toNat == 39)

/-- The `dateString.replace(/[^\d\/]/g, "")` cleaning step of
`Person.parseBrazilianDate`. -/
def cleanDateChars (s : String) : List Char :=
  s.toList.filter (fun c => c.isDigit || c == '/')

/-- The `/^(\d{1,2})\/(\d{1,2})\/(\d{4})$/` match of
`Person.parseBrazilianDate` on the cleaned character sequence, returning the
three `parseInt` results on success. -/
def matchDDMMYYYY (cs : List Char) : Option (Nat × Nat × Nat) :=
  match splitOnChar '/' cs with
  | [a, b, c] =>
    if 1 ≤ a.length && a.length ≤ 2 && a.all Char.isDigit &&
        (1 ≤ b.length && b.length ≤ 2 && b.all Char.isDigit) &&
        (c.length == 4 && c.all Char.isDigit) then
      some (digitsToNat a, digitsToNat b, digitsToNat c)
    else none
  | _ => none

/-- `Person.parseBrazilianDate`: clean, regex-match, range-check day/month/
year, construct the date and require the components to round-trip. -/
def parseBrazilianDate (s : String) : Option SimpleDate :=
  if s = "" then none
  else
    match matchDDMMYYYY (cleanDateChars s) with
    | none => none
    | some (d, m, y) =>
      if d < 1 || d > 31 then none
      else if m < 1 || m > 12 then none
      else if y < 1900 || y > 2100 then none
      else
        let date := jsMakeDate y m d
        if date.day != d || date.month != m || date.year != y then none
        else some date

/-- `Person.validateBirthDate`: parse, reject future dates, and reject when
`today.getFullYear() - birthDate.getFullYear()` exceeds 120. The current
date, read off `new Date()` inside the JS code, is the `today` parameter. -/
def validateBirthDate (today : SimpleDate) (s : String) : Bool :=
  if s = "" then false
  else
    match parseBrazilianDate s with
    | none => false
    | some birth =>
      if dateAfter birth today then false
      else if (today.year : Int) - (birth.year : Int) > 120 then false
      else true

/-- `Person.validatePhone`: strip non-digits, require exactly 10 or 11
digits, and require the two-digit area code to lie in [11,99]. -/
def validatePhone (phone : String) : Bool :=
  if phone = "" then false
  else
    let cleanPhone := phone.toList.filter Char.isDigit
    if cleanPhone.length != 10 && cleanPhone.length != 11 then false
    else
      let areaCode := digitsToNat (cleanPhone.take 2)
      if areaCode < 11 || areaCode > 99 then false
      else true

/-- Domain part check of the email regex: a dot strictly inside the domain
(non-empty on both sides). -/
def dotInsideOk (cs : List Char) : Bool :=
  ((cs.drop 1).dropLast).contains '.'

/-- `Person.validateEmail`: the trimmed string must match
`/^[^\s@]+@[^\s@]+\.[^\s@]+$/` — exactly one `@`, non-empty whitespace-free
local part, and a domain containing a dot with non-empty parts around it. -/
def validateEmail (email : String) : Bool :=
  if email = "" then false
  else
    let t := trimChars email.toList
    match splitOnChar '@' t with
    | [localPart, domain] =>
      localPart.length ≥ 1 &&
        localPart.all (fun c => !c.isWhitespace) &&
        domain.all (fun c => !c.isWhitespace) &&
        dotInsideOk domain
    | _ => false

/-! ## Person record model -/

/-- The `Person` record: contact fields plus identity and timestamps. -/
structure Person where
  id : String
  nome : String
  dataNascimento : String
  telefone : String
  email : String
  createdAt : Nat
  updatedAt : Nat
deriving DecidableEq, Repr

/-- The `Person` constructor: fresh id, upper-cased name (empty when the
name is falsy), remaining fields verbatim, both timestamps set to now. -/
def Person.construct (freshId : String) (now : Nat)
    (nome dataNascimento telefone email : String) : Person :=
  { id := freshId
    nome := if nome = "" then "" else jsToUpper nome
    dataNascimento := dataNascimento
    telefone := telefone
    email := email
    createdAt := now
    updatedAt := now }

/-- One field-level validation error. -/
structure FieldError where
  field : String
  message : String
deriving DecidableEq, Repr

/-- `ValidationResult`: overall verdict plus ordered per-field errors. -/
structure ValidationResult where
  isValid : Bool
  errors : List FieldError
deriving DecidableEq, Repr

/-- `ValidationResult.getAllMessages`. -/
def ValidationResult.getAllMessages (v : ValidationResult) : List String :=
  v.errors.map (fun e => e.message)

/-- `Person.validate`: run the four field validators in order, collect one
fixed message per failing field, and succeed exactly when none fail. -/
def Person.validate (p : Person) (today : SimpleDate) : ValidationResult :=
  let errors :=
    (if validateName p.nome then []
     else [⟨"nome",
       "Nome deve conter apenas letras, espaços e caracteres válidos (2-50 caracteres)"⟩]) ++
    (if validateBirthDate today p.dataNascimento then []
     else [⟨"dataNascimento", "Data de nascimento inválida ou pessoa muito idosa"⟩]) ++
    (if validatePhone p.telefone then []
     else [⟨"telefone", "Telefone deve estar no formato brasileiro válido"⟩]) ++
    (if validateEmail p.email then []
     else [⟨"email", "Email deve ter um formato válido"⟩])
  ⟨errors.length == 0, errors⟩

/-- The plain object produced by `Person.toJSON` (and consumed by
`Person.fromJSON`). `none` in a field models the field being absent or
`undefined` (falsy) in the incoming JSON; `toJSON` always emits every
field. -/
structure PersonJSON where
  id : Option String
  nome : Option String
  dataNascimento : Option String
  telefone : Option String
  email : Option String
  createdAt : Option Nat
  updatedAt : Option Nat
deriving DecidableEq, Repr

/-- `Person.toJSON`: all fields, verbatim. -/
def Person.toJSON (p : Person) : PersonJSON :=
  { id := some p.id
    nome := some p.nome
    dataNascimento := some p.dataNascimento
    telefone := some p.telefone
    email := some p.email
    createdAt := some p.createdAt
    updatedAt := some p.updatedAt }

/-- `Person.fromJSON`: construct a fresh `Person` from the data fields, then
prefer `data.id` / `data.createdAt` / `data.updatedAt` when they are truthy
(a present `Date`/ISO string is always truthy; `data.id` must additionally
be a non-empty string). Absent string fields degrade to `""`, observationally
equal to `undefined` for every operation modelled here. -/
def Person.fromJSON (freshId : String) (now : Nat) (data : PersonJSON) : Person :=
  let person := Person.construct freshId now
    (data.nome.getD "") (data.dataNascimento.getD "")
    (data.telefone.getD "") (data.email.getD "")
  { person with
    id := match data.id with
      | some s => if s ≠ "" then s else person.id
      | none => person.id
    createdAt := data.createdAt.getD person.createdAt
    updatedAt := data.updatedAt.getD person.updatedAt }

/-! ## Errors (ErrorHandler.js) -/

/-- The `ErrorTypes` enumeration. -/
inductive ErrorType
  | VALIDATION_ERROR
  | STORAGE_ERROR
  | STORAGE_QUOTA_ERROR
  | DUPLICATE_ERROR
  | THEME_ERROR
  | NETWORK_ERROR
  | UNKNOWN_ERROR
deriving DecidableEq, Repr

/-- `AppError`: user-facing message plus error kind (the `details` payload
carries no information any claim depends on and is omitted). -/
structure AppError where
  message : String
  errType : ErrorType
deriving DecidableEq, Repr

/-- Decidable equality of operation outcomes. -/
instance {ε α : Type} [DecidableEq ε] [DecidableEq α] : DecidableEq (Except ε α) :=
  fun x y =>
    match x, y with
    | .ok a, .ok b =>
      if h : a = b then isTrue (by rw [h])
      else isFalse (fun hh => h (by injection hh))
    | .error e, .error f =>
      if h : e = f then isTrue (by rw [h])
      else isFalse (fun hh => h (by injection hh))
    | .ok _, .error _ => isFalse (fun hh => Except.noConfusion hh)
    | .error _, .ok _ => isFalse (fun hh => Except.noConfusion hh)

/-! ## Serialization and checksum (DataBackup.js) -/

/-- JSON string-literal rendering with the two escapes that can occur in the
data considered here (every field in the repository's records is plain
text). -/
def jsonQuote (s : String) : String :=
  "\"" ++ String.join (s.toList.map (fun c =>
    if c == '"' then "\\\""
    else if c == '\\' then "\\\\"
    else String.singleton c)) ++ "\""

/-- JSON rendering of an optional string field value. -/
def jsonOptStr (o : Option String) : String :=
  match o with
  | some s => jsonQuote s
  | none => "null"

/-- JSON rendering of a timestamp field. A `Date` serializes through
`JSON.stringify` as a quoted ISO string; the ISO text is abstracted to the
decimal rendering of the epoch value, which is injective like the real
rendering and carries the same information into the checksum. -/
def jsonOptTime (o : Option Nat) : String :=
  match o with
  | some n => "\"" ++ toString n ++ "\""
  | none => "null"

/-- `JSON.stringify` of one serialized person, keys in insertion order. -/
def stringifyPersonJSON (p : PersonJSON) : String :=
  "\x7b\"id\":" ++ jsonOptStr p.id ++
    ",\"nome\":" ++ jsonOptStr p.nome ++
    ",\"dataNascimento\":" ++ jsonOptStr p.dataNascimento ++
    ",\"telefone\":" ++ jsonOptStr p.telefone ++
    ",\"email\":" ++ jsonOptStr p.email ++
    ",\"createdAt\":" ++ jsonOptTime p.createdAt ++
    ",\"updatedAt\":" ++ jsonOptTime p.updatedAt ++ "\x7d"

/-- `JSON.stringify` of a serialized-record array. -/
def stringifyData (ps : List PersonJSON) : String :=
  "[" ++ String.intercalate "," (ps.map stringifyPersonJSON) ++ "]"

/-- `DataBackup.calculateChecksum`: hash of `JSON.stringify(data)`. -/
def calculateChecksum (ps : List PersonJSON) : String :=
  calculateChecksumStr (stringifyData ps)

/-- A backup snapshot, as stored under the backup key. -/
structure Snapshot where
  id : String
  timestamp : String
  data : List PersonJSON
  version : String
  checksum : String
deriving DecidableEq, Repr

/-! ## Ambient runtime environment -/

/-- Which way `localStorage.setItem` fails, when it fails. -/
inductive StorageFailure
  | quota
  | generic
deriving DecidableEq, Repr

/-- The ambient values a single operation draws from the JS runtime: the
current date (for `validateBirthDate`), the current epoch-millis timestamp,
its ISO rendering, freshly generated ids, and whether `localStorage.setItem`
throws during the operation. -/
structure Env where
  today : SimpleDate
  now : Nat
  nowIso : String
  freshId : String
  freshBackupId : String
  setItemFail : Option StorageFailure
deriving DecidableEq, Repr

/-! ## DataBackup operations -/

/-- `DataBackup.createBackup`: deep-clone the data (the identity on pure
values), checksum it, prepend the snapshot, truncate the history to the 5
most recent, and write it back; a failing write raises a storage error and
leaves the stored history unchanged. -/
def DataBackup.createBackup (env : Env) (data : List PersonJSON)
    (backups : List Snapshot) : Except AppError (String × List Snapshot) :=
  let backup : Snapshot :=
    { id := env.freshBackupId
      timestamp := env.nowIso
      data := data
      version := "1.0"
      checksum := calculateChecksum data }
  let existingBackups := backup :: backups
  let existingBackups :=
    if existingBackups.length > 5 then existingBackups.take 5
    else existingBackups
  match env.setItemFail with
  | some _ => .error ⟨"Erro ao criar backup", ErrorType.STORAGE_ERROR⟩
  | none => .ok (backup.id, existingBackups)

/-- `DataBackup.restoreBackup`: look up the snapshot by id, recompute the
checksum over its data, and return the data on a match. -/
def DataBackup.restoreBackup (backups : List Snapshot) (backupId : String) :
    Except AppError (List PersonJSON) :=
  match backups.find? (fun b => b.id == backupId) with
  | none => .error ⟨"Backup não encontrado", ErrorType.VALIDATION_ERROR⟩
  | some backup =>
    if calculateChecksum backup.data != backup.checksum then
      .error ⟨"Backup corrompido - checksum inválido", ErrorType.STORAGE_ERROR⟩
    else .ok backup.data

/-- `DataBackup.shouldCreateBackup`: the data length changed or the
checksums differ. -/
def DataBackup.shouldCreateBackup (currentData lastBackupData : List PersonJSON) : Bool :=
  if currentData.length != lastBackupData.length then true
  else calculateChecksum currentData != calculateChecksum lastBackupData

/-- `DataBackup.autoBackup`: create a backup when there is none yet or the
data changed; failures inside are swallowed (`console.warn`), leaving the
stored history as it was. -/
def DataBackup.autoBackup (env : Env) (data : List PersonJSON)
    (backups : List Snapshot) : List Snapshot :=
  let create :=
    match DataBackup.createBackup env data backups with
    | .ok (_, bs) => bs
    | .error _ => backups
  match backups.head? with
  | none => create
  | some lastBackup =>
    if DataBackup.shouldCreateBackup data lastBackup.data then create
    else backups

/-- One per-entry structural check of `DataBackup.validateImportData`:
`nome`, `email` and `telefone` must be truthy strings and `dataNascimento`
must be truthy (absent and empty values are the falsy cases arising in the
typed model). -/
def importItemErrors (index : Nat) (item : PersonJSON) : List String :=
  (if item.nome.getD "" = "" then
    ["Registro " ++ toString (index + 1) ++ ": Nome inválido"] else []) ++
  (if item.email.getD "" = "" then
    ["Registro " ++ toString (index + 1) ++ ": Email inválido"] else []) ++
  (if item.telefone.getD "" = "" then
    ["Registro " ++ toString (index + 1) ++ ": Telefone inválido"] else []) ++
  (if item.dataNascimento.getD "" = "" then
    ["Registro " ++ toString (index + 1) ++ ": Data de nascimento inválida"] else [])

/-- The `forEach` accumulation of `validateImportData`: collected error
messages, count of valid entries, count of invalid entries. -/
def importScan : Nat → List PersonJSON → List String × Nat × Nat
  | _, [] => ([], 0, 0)
  | i, item :: rest =>
    let errs := importItemErrors i item
    let (es, v, inv) := importScan (i + 1) rest
    if errs.length > 0 then (errs ++ es, v, inv + 1) else (es, v + 1, inv)

/-- The result shape returned by `validateImportData`. -/
structure ImportValidation where
  isValid : Bool
  errors : List String
  warnings : List String
  validRecords : Nat
  invalidRecords : Nat
deriving DecidableEq, Repr

/-- `DataBackup.validateImportData`: per-entry structural check over the
array (the non-array guard cannot fire in the typed model); `isValid` is
cleared exactly when some error message was collected. -/
def DataBackup.validateImportData (data : List PersonJSON) : ImportValidation :=
  let (es, v, inv) := importScan 0 data
  { isValid := es.length == 0
    errors := es
    warnings := []
    validRecords := v
    invalidRecords := inv }

/-! ## DataManager -/

/-- The storage manager's state: the live in-memory collection plus the
stored backup history (the contents of the two localStorage keys it
touches; the serialized main blob itself adds nothing observable beyond
`persons`). -/
structure DMState where
  persons : List Person
  backups : List Snapshot
deriving DecidableEq, Repr

/-- `DataManager.getAllPersons` returns a fresh copy `[...this.persons]`;
its contents equal the live collection (the aliasing aspect is modelled
separately by the heap embedding below). -/
def DataManager.getAllPersons (st : DMState) : List Person := st.persons

/-- `Array.prototype.some` with the element index supplied to the callback,
starting at `i`. -/
def someWithIndex (f : Nat → Person → Bool) : Nat → List Person → Bool
  | _, [] => false
  | i, x :: xs => f i x || someWithIndex f (i + 1) xs

/-- `DataManager.isDuplicate`: some existing record at an index other than
`excludeIndex` shares the email or the phone string (the default exclude
index in the source is `-1`, matching no position). -/
def DataManager.isDuplicate (persons : List Person) (person : Person)
    (excludeIndex : Int) : Bool :=
  someWithIndex (fun index existingPerson =>
    if (index : Int) == excludeIndex then false
    else existingPerson.email == person.email ||
      existingPerson.telefone == person.telefone) 0 persons

/-- `DataManager.savePersons`: auto-backup the serialized collection (never
throws), then write the collection blob; a failing write raises the quota
error or a generic storage error. Returns the outcome together with the
backup history as left in storage. -/
def DataManager.savePersons (env : Env) (persons : List Person)
    (backups : List Snapshot) : Except AppError Unit × List Snapshot :=
  let backups2 := DataBackup.autoBackup env (persons.map Person.toJSON) backups
  match env.setItemFail with
  | some StorageFailure.quota =>
    (.error ⟨"Armazenamento local cheio. Remova alguns registros.",
      ErrorType.STORAGE_QUOTA_ERROR⟩, backups2)
  | some StorageFailure.generic =>
    (.error ⟨"Erro ao salvar dados no armazenamento",
      ErrorType.STORAGE_ERROR⟩, backups2)
  | none => (.ok (), backups2)

/-- `DataManager.addPerson`: validate, reject duplicates, push, persist.
The push happens before the persist; a persist failure propagates with the
pushed record still in the live collection (there is no rollback). -/
def DataManager.addPerson (env : Env) (st : DMState) (person : Person) :
    Except AppError Bool × DMState :=
  let validation := person.validate env.today
  if !validation.isValid then
    (.error ⟨"Validation failed: " ++
        String.intercalate ", " validation.getAllMessages,
      ErrorType.VALIDATION_ERROR⟩, st)
  else if DataManager.isDuplicate st.persons person (-1) then
    (.error ⟨"Pessoa já cadastrada com este email ou telefone",
      ErrorType.DUPLICATE_ERROR⟩, st)
  else
    let persons2 := st.persons ++ [person]
    let (r, backups2) := DataManager.savePersons env persons2 st.backups
    match r with
    | .ok _ => (.ok true, ⟨persons2, backups2⟩)
    | .error e => (.error e, ⟨persons2, backups2⟩)

/-- `DataManager.updatePerson`: range-check the index, validate, reject
duplicates excluding the updated position, graft the original id and
creation date onto the replacement, stamp `updatedAt`, replace in place and
persist (again with no rollback on a failing persist). -/
def DataManager.updatePerson (env : Env) (st : DMState) (index : Int)
    (updatedPerson : Person) : Except AppError Bool × DMState :=
  if index < 0 || index ≥ (st.persons.length : Int) then
    (.error ⟨"Índice inválido", ErrorType.VALIDATION_ERROR⟩, st)
  else
    let validation := updatedPerson.validate env.today
    if !validation.isValid then
      (.error ⟨"Validation failed: " ++
          String.intercalate ", " validation.getAllMessages,
        ErrorType.VALIDATION_ERROR⟩, st)
    else if DataManager.isDuplicate st.persons updatedPerson index then
      (.error ⟨"Pessoa já cadastrada com este email ou telefone",
        ErrorType.DUPLICATE_ERROR⟩, st)
    else
      match st.persons[index.toNat]? with
      | none =>
        -- unreachable: the range check above guarantees the index is valid
        (.error ⟨"Índice inválido", ErrorType.VALIDATION_ERROR⟩, st)
      | some originalPerson =>
        let replaced :=
          { updatedPerson with
            id := originalPerson.id
            createdAt := originalPerson.createdAt
            updatedAt := env.now }
        let persons2 := st.persons.set index.toNat replaced
        let (r, backups2) := DataManager.savePersons env persons2 st.backups
        match r with
        | .ok _ => (.ok true, ⟨persons2, backups2⟩)
        | .error e => (.error e, ⟨persons2, backups2⟩)

/-- `DataManager.deletePerson`: range-check, splice out the record, persist
(no rollback on a failing persist). -/
def DataManager.deletePerson (env : Env) (st : DMState) (index : Int) :
    Except AppError Bool × DMState :=
  if index < 0 || index ≥ (st.persons.length : Int) then
    (.error ⟨"Índice inválido", ErrorType.VALIDATION_ERROR⟩, st)
  else
    let persons2 := st.persons.eraseIdx index.toNat
    let (r, backups2) := DataManager.savePersons env persons2 st.backups
    match r with
    | .ok _ => (.ok true, ⟨persons2, backups2⟩)
    | .error e => (.error e, ⟨persons2, backups2⟩)

/-- The per-record predicate of `DataManager.searchPersons`: case-insensitive
substring match on name and email, raw substring match on the stored phone
string. -/
def searchMatches (searchTerm : List Char) (person : Person) : Bool :=
  containsSeq searchTerm (jsToLower person.nome).toList ||
    containsSeq searchTerm (jsToLower person.email).toList ||
    containsSeq searchTerm person.telefone.toList

/-- `DataManager.searchPersons`: a falsy query returns the full collection
(as a fresh copy); otherwise filter by the lower-cased, trimmed term. -/
def DataManager.searchPersons (st : DMState) (query : String) : List Person :=
  if query = "" then DataManager.getAllPersons st
  else
    let searchTerm := trimChars (jsToLower query).toList
    st.persons.filter (fun person => searchMatches searchTerm person)

/-- `DataManager.importData`, after `importFromFile` has resolved with the
parsed `data` array (file handling is I/O outside the embedding): run the
structural validation and reject the whole import when it reports invalid;
otherwise convert every entry through `Person.fromJSON` and hand back the
candidates with the summary. -/
def DataManager.importData (env : Env) (importedData : List PersonJSON) :
    Except AppError (List Person × ImportValidation) :=
  let validation := DataBackup.validateImportData importedData
  if !validation.isValid then
    .error ⟨"Dados inválidos: " ++ String.intercalate ", " validation.errors,
      ErrorType.VALIDATION_ERROR⟩
  else
    .ok (importedData.map (Person.fromJSON env.freshId env.now), validation)

/-- `DataManager.replaceAllData`: back up the current collection, then
wholesale-replace the live collection and persist. A backup failure aborts
before the replacement; a persist failure leaves the replacement applied. -/
def DataManager.replaceAllData (env : Env) (st : DMState)
    (persons : List Person) : Except AppError Bool × DMState :=
  match DataBackup.createBackup env (st.persons.map Person.toJSON) st.backups with
  | .error e =>
    (.error ⟨"Erro ao substituir dados: " ++ e.message,
      ErrorType.STORAGE_ERROR⟩, st)
  | .ok (_, backups2) =>
    let persons2 := persons
    let (r, backups3) := DataManager.savePersons env persons2 backups2
    match r with
    | .ok _ => (.ok true, ⟨persons2, backups3⟩)
    | .error e =>
      (.error ⟨"Erro ao substituir dados: " ++ e.message,
        ErrorType.STORAGE_ERROR⟩, ⟨persons2, backups3⟩)

/-- `DataManager.restoreFromBackup`: restore the snapshot's data, convert
through `Person.fromJSON`, replace the live collection and persist. -/
def DataManager.restoreFromBackup (env : Env) (st : DMState)
    (backupId : String) : Except AppError Bool × DMState :=
  match DataBackup.restoreBackup st.backups backupId with
  | .error e => (.error e, st)
  | .ok backupData =>
    let persons2 := backupData.map (Person.fromJSON env.freshId env.now)
    let (r, backups2) := DataManager.savePersons env persons2 st.backups
    match r with
    | .ok _ => (.ok true, ⟨persons2, backups2⟩)
    | .error e => (.error e, ⟨persons2, backups2⟩)

/-! ## Spec-side comparison definitions -/

/-- Modelled from the spec: "age in whole years" — the calendar-year
difference, minus one when the birthday has not yet occurred this year.
Stated only to compare the spec's age notion against the code's. -/
def spec_ageInWholeYears (today birth : SimpleDate) : Int :=
  (today.year : Int) - (birth.year : Int) -
    (if birth.month > today.month ∨
        (birth.month = today.month ∧ birth.day > today.day)
     then 1 else 0)

/-- Digits remaining after stripping non-digits, as the spec describes the
phone validation. -/
def specPhoneDigits (s : String) : List Char :=
  s.toList.filter Char.isDigit

/-- The first two remaining digits read as a number, as the spec describes
the area-code check. -/
def specPhoneAreaCode (s : String) : Nat :=
  digitsToNat ((specPhoneDigits s).take 2)

/-- Structural validity of one import entry, as counted by
`validateImportData`: truthy `nome`, `email`, `telefone` and a truthy
`dataNascimento`. -/
def entryStructOk (item : PersonJSON) : Bool :=
  !(item.nome.getD "" == "") && !(item.email.getD "" == "") &&
    !(item.telefone.getD "" == "") && !(item.dataNascimento.getD "" == "")

/-- Is a `DataManager` outcome an error (a thrown `AppError`)? -/
def isError (r : Except AppError Bool) : Bool :=
  match r with
  | .error _ => true
  | .ok _ => false

/-- Two records with distinct email and distinct phone strings. -/
def ContactDistinct (a b : Person) : Prop :=
  a.email ≠ b.email ∧ a.telefone ≠ b.telefone

/-- The uniqueness invariant claimed for the collection: no two distinct
records share an email or a phone string. -/
def UniqueContacts (ps : List Person) : Prop :=
  List.Pairwise ContactDistinct ps

/-- States reachable from the empty collection through the Storage
Manager's own API, including wholesale replacement and backup restore
(each step may use any ambient environment, including failing persists). -/
inductive ReachableFull : DMState → Prop where
  | empty : ReachableFull ⟨[], []⟩
  | add (env : Env) (st : DMState) (p : Person) :
      ReachableFull st → ReachableFull (DataManager.addPerson env st p).2
  | update (env : Env) (st : DMState) (i : Int) (p : Person) :
      ReachableFull st → ReachableFull (DataManager.updatePerson env st i p).2
  | delete (env : Env) (st : DMState) (i : Int) :
      ReachableFull st → ReachableFull (DataManager.deletePerson env st i).2
  | replaceAll (env : Env) (st : DMState) (ps : List Person) :
      ReachableFull st → ReachableFull (DataManager.replaceAllData env st ps).2
  | restore (env : Env) (st : DMState) (backupId : String) :
      ReachableFull st → ReachableFull (DataManager.restoreFromBackup env st backupId).2

/-- States reachable from the empty collection through the three
duplicate-checked CRUD operations only. -/
inductive ReachableCRUD : DMState → Prop where
  | empty : ReachableCRUD ⟨[], []⟩
  | add (env : Env) (st : DMState) (p : Person) :
      ReachableCRUD st → ReachableCRUD (DataManager.addPerson env st p).2
  | update (env : Env) (st : DMState) (i : Int) (p : Person) :
      ReachableCRUD st → ReachableCRUD (DataManager.updatePerson env st i p).2
  | delete (env : Env) (st : DMState) (i : Int) :
      ReachableCRUD st → ReachableCRUD (DataManager.deletePerson env st i).2

/-! ## Heap embedding for array freshness (claim about `[...]` copies)

JS arrays are heap references; `getAllPersons` returning `[...this.persons]`
and `searchPersons` returning `filter` results means the caller receives a
reference distinct from the manager's internal one. The heap is modelled as
a store of arrays addressed by allocation order. -/

/-- A store of JS arrays of `Person`, addressed by allocation index. -/
abbrev Heap := List (List Person)

/-- Allocate a new array holding `xs`; returns its reference. -/
def hAlloc (h : Heap) (xs : List Person) : Nat × Heap :=
  (h.length, h ++ [xs])

/-- Read the array behind reference `r`. -/
def hRead (h : Heap) (r : Nat) : List Person :=
  h.getD r []

/-- Overwrite the array behind reference `r` (models in-place mutation such
as `push`/`splice` on that array). -/
def hWrite (h : Heap) (r : Nat) (xs : List Person) : Heap :=
  h.set r xs

/-- The manager's handle on its internal `this.persons` array. -/
structure DMRef where
  ref : Nat
deriving DecidableEq, Repr

/-- `DataManager.getAllPersons` in the heap embedding: allocate a fresh
array holding a copy of the internal one (`[...this.persons]`). -/
def DataManager.getAllPersonsH (h : Heap) (dm : DMRef) : Nat × Heap :=
  hAlloc h (hRead h dm.ref)

/-- `DataManager.searchPersons` in the heap embedding: a falsy query hands
back `getAllPersons`'s fresh copy; otherwise `filter` allocates a fresh
result array. -/
def DataManager.searchPersonsH (h : Heap) (dm : DMRef) (query : String) :
    Nat × Heap :=
  if query = "" then DataManager.getAllPersonsH h dm
  else
    let searchTerm := trimChars (jsToLower query).toList
    hAlloc h ((hRead h dm.ref).filter (fun p => searchMatches searchTerm p))

/-! ## Concrete fixtures -/

/-- A fixed current date used to instantiate "now" in concrete runs. -/
def sampleToday : SimpleDate := ⟨2026, 10, 11⟩

/-- An environment whose backing store accepts writes. -/
def envOk : Env :=
  { today := sampleToday
    now := 1000
    nowIso := "2026-10-11T00:00:00.000Z"
    freshId := "person_1"
    freshBackupId := "backup_1"
    setItemFail := none }

/-- An environment whose `localStorage.setItem` throws `QuotaExceededError`. -/
def envQuota : Env := { envOk with setItemFail := some StorageFailure.quota }

/-- A fully valid sample record (the spec's own scenario record). -/
def ana : Person :=
  { id := "person_a"
    nome := "ANA LIMA"
    dataNascimento := "10/05/1995"
    telefone := "(21) 98888-7777"
    email := "ana@x.com"
    createdAt := 10
    updatedAt := 10 }

/-- A second valid record with distinct email and phone. -/
def bia : Person :=
  { id := "person_b"
    nome := "BIA SOUZA"
    dataNascimento := "01/01/2000"
    telefone := "(11) 91111-2222"
    email := "bia@x.com"
    createdAt := 20
    updatedAt := 20 }

/-- The empty manager state (empty collection, no backups). -/
def emptyDM : DMState := ⟨[], []⟩

/-- A record that is valid on its own but shares `ana`'s email. -/
def anaDup : Person := { bia with id := "person_c", email := "ana@x.com" }

/-- An import entry whose `nome` is falsy but whose other fields are fine. -/
def badImportItem : PersonJSON :=
  { id := none
    nome := some ""
    dataNascimento := some "10/05/1995"
    telefone := some "(21) 98888-7777"
    email := some "ana@x.com"
    createdAt := none
    updatedAt := none }

/-- A snapshot created over the empty data array whose stored `data` was
tampered with afterwards (its checksum still covers the empty array). -/
def tamperedSnapshot : Snapshot :=
  { id := "backup_1"
    timestamp := "t"
    data := [ana.toJSON]
    version := "1.0"
    checksum := calculateChecksum [] }

/-! ## Helper lemmas -/

theorem someWithIndex_false_iff (f : Nat → Person → Bool) :
    ∀ (xs : List Person) (n : Nat),
      someWithIndex f n xs = false ↔
        ∀ j (hj : j < xs.length), f (n + j) xs[j] = false := by
  intro xs
  induction xs with
  | nil => intro n; simp [someWithIndex]
  | cons x xs ih =>
    intro n
    rw [someWithIndex, Bool.or_eq_false_iff, ih (n + 1)]
    constructor
    · rintro ⟨h0, hrest⟩ j hj
      cases j with
      | zero => simpa using h0
      | succ k =>
        have hk : k < xs.length := by simpa using hj
        have hidx : n + (k + 1) = n + 1 + k := by omega
        rw [hidx]
        simpa using hrest k hk
    · intro hall
      refine ⟨by simpa using hall 0 (by simp), fun k hk => ?_⟩
      have hidx : n + (k + 1) = n + 1 + k := by omega
      have := hall (k + 1) (by simpa using Nat.succ_lt_succ hk)
      rw [hidx] at this
      simpa using this

theorem isDuplicate_false_iff (persons : List Person) (p : Person) (excl : Int) :
    DataManager.isDuplicate persons p excl = false ↔
      ∀ j (hj : j < persons.length), (j : Int) ≠ excl →
        persons[j].email ≠ p.email ∧ persons[j].telefone ≠ p.telefone := by
  unfold DataManager.isDuplicate
  rw [someWithIndex_false_iff]
  constructor
  · intro h j hj hne
    have h2 := h j hj
    simp only [Nat.zero_add] at h2
    rw [if_neg (by simpa using hne)] at h2
    simpa using h2
  · intro h j hj
    simp only [Nat.zero_add]
    by_cases hc : (j : Int) = excl
    · simp [hc]
    · rw [if_neg (by simpa using hc)]
      have := h j hj hc
      simp [this.1, this.2]

theorem savePersons_ok (env : Env) (persons : List Person)
    (backups : List Snapshot) (h : env.setItemFail = none) :
    DataManager.savePersons env persons backups =
      (.ok (), DataBackup.autoBackup env (persons.map Person.toJSON) backups) := by
  unfold DataManager.savePersons
  rw [h]

theorem addPerson_persons_cases (env : Env) (st : DMState) (p : Person) :
    (DataManager.addPerson env st p).2.persons = st.persons ∨
      ((DataManager.addPerson env st p).2.persons = st.persons ++ [p] ∧
        DataManager.isDuplicate st.persons p (-1) = false) := by
  by_cases h1 : (p.validate env.today).isValid = true
  · by_cases h2 : DataManager.isDuplicate st.persons p (-1) = true
    · left; unfold DataManager.addPerson; simp [h1, h2]
    · right
      refine ⟨?_, by simpa using h2⟩
      unfold DataManager.addPerson
      rcases hsv : DataManager.savePersons env (st.persons ++ [p]) st.backups
        with ⟨r, backups2⟩
      rcases r with e | u <;> simp [h1, h2, hsv]
  · left; unfold DataManager.addPerson; simp [h1]

theorem updatePerson_persons_cases (env : Env) (st : DMState) (index : Int)
    (p : Person) :
    (DataManager.updatePerson env st index p).2.persons = st.persons ∨
      ∃ orig : Person,
        st.persons[index.toNat]? = some orig ∧
        DataManager.isDuplicate st.persons p index = false ∧
        0 ≤ index ∧ index < (st.persons.length : Int) ∧
        (DataManager.updatePerson env st index p).2.persons =
          st.persons.set index.toNat
            { p with
              id := orig.id
              createdAt := orig.createdAt
              updatedAt := env.now } := by
  by_cases h0 : (index < 0 || index ≥ (st.persons.length : Int)) = true
  · left; unfold DataManager.updatePerson; simp only [h0, if_true]
  · by_cases h1 : (p.validate env.today).isValid = true
    · by_cases h2 : DataManager.isDuplicate st.persons p index = true
      · left; unfold DataManager.updatePerson; simp [h0, h1, h2]
      · rcases hg : st.persons[index.toNat]? with _ | orig
        · left; unfold DataManager.updatePerson; simp [h0, h1, h2, hg]
        · right
          have hrange : ¬(index < 0 ∨ (st.persons.length : Int) ≤ index) := by
            simpa using h0
          refine ⟨orig, rfl, by simpa using h2, by omega, by omega, ?_⟩
          unfold DataManager.updatePerson
          rcases hsv : DataManager.savePersons env
              (st.persons.set index.toNat
                { p with
                  id := orig.id
                  createdAt := orig.createdAt
                  updatedAt := env.now }) st.backups with ⟨r, backups2⟩
          rcases r with e | u <;> simp [h0, h1, h2, hg, hsv]
    · left; unfold DataManager.updatePerson; simp [h0, h1]

theorem deletePerson_persons_cases (env : Env) (st : DMState) (index : Int) :
    (DataManager.deletePerson env st index).2.persons = st.persons ∨
      (DataManager.deletePerson env st index).2.persons =
        st.persons.eraseIdx index.toNat := by
  by_cases h0 : (index < 0 || index ≥ (st.persons.length : Int)) = true
  · left; unfold DataManager.deletePerson; simp only [h0, if_true]
  · right
    unfold DataManager.deletePerson
    rcases hsv : DataManager.savePersons env
        (st.persons.eraseIdx index.toNat) st.backups with ⟨r, backups2⟩
    rcases r with e | u <;> simp [h0, hsv]

theorem uniqueContacts_append_single (ps : List Person) (p : Person)
    (hu : UniqueContacts ps)
    (hdup : DataManager.isDuplicate ps p (-1) = false) :
    UniqueContacts (ps ++ [p]) := by
  rw [UniqueContacts, List.pairwise_append]
  refine ⟨hu, List.pairwise_singleton _ _, ?_⟩
  intro a ha b hb
  rw [List.mem_singleton] at hb
  rw [hb]
  obtain ⟨j, hj, rfl⟩ := List.mem_iff_getElem.mp ha
  exact (isDuplicate_false_iff ps p (-1)).mp hdup j hj (by omega)

theorem uniqueContacts_set (ps : List Person) (i : Nat) (r p : Person)
    (he : r.email = p.email) (ht : r.telefone = p.telefone)
    (hu : UniqueContacts ps)
    (hdup : DataManager.isDuplicate ps p (i : Int) = false) :
    UniqueContacts (ps.set i r) := by
  rw [UniqueContacts, List.pairwise_iff_getElem] at *
  intro a b ha hb hab
  rw [List.length_set] at ha hb
  rw [List.getElem_set, List.getElem_set]
  have hd := (isDuplicate_false_iff ps p (i : Int)).mp hdup
  by_cases hia : i = a
  · subst hia
    rw [if_pos rfl, if_neg (by omega)]
    have hdb := hd b hb (by omega)
    exact ⟨by rw [he]; exact fun hh => hdb.1 hh.symm,
      by rw [ht]; exact fun hh => hdb.2 hh.symm⟩
  · rw [if_neg hia]
    by_cases hib : i = b
    · subst hib
      rw [if_pos rfl]
      have hda := hd a ha (by omega)
      exact ⟨he ▸ hda.1, ht ▸ hda.2⟩
    · rw [if_neg hib]
      exact hu a b ha hb hab

theorem hRead_append_self (h : Heap) (xs : List Person) :
    hRead (h ++ [xs]) h.length = xs := by
  unfold hRead
  rw [List.getD_eq_getElem?_getD, List.getElem?_append_right (Nat.le_refl _)]
  simp

theorem hRead_append_lt (h : Heap) (xs : List Person) (r : Nat)
    (hr : r < h.length) : hRead (h ++ [xs]) r = hRead h r := by
  unfold hRead
  rw [List.getD_eq_getElem?_getD, List.getD_eq_getElem?_getD,
    List.getElem?_append_left hr]

theorem hRead_write_ne (h : Heap) (r : Nat) (xs : List Person) (r2 : Nat)
    (hne : r ≠ r2) : hRead (hWrite h r xs) r2 = hRead h r2 := by
  unfold hRead hWrite
  rw [List.getD_eq_getElem?_getD, List.getD_eq_getElem?_getD,
    List.getElem?_set_ne hne]

theorem importItemErrors_nil_iff (i : Nat) (item : PersonJSON) :
    importItemErrors i item = [] ↔ entryStructOk item = true := by
  unfold importItemErrors entryStructOk
  split_ifs <;> simp_all

theorem importScan_spec (data : List PersonJSON) : ∀ n : Nat,
    (importScan n data).2.1 = (data.filter entryStructOk).length ∧
    (importScan n data).2.2 = (data.filter (fun x => !entryStructOk x)).length ∧
    ((importScan n data).1 = [] ↔ data.all entryStructOk = true) := by
  induction data with
  | nil => intro n; simp [importScan]
  | cons item rest ih =>
    intro n
    obtain ⟨ih1, ih2, ih3⟩ := ih (n + 1)
    rcases hrec : importScan (n + 1) rest with ⟨es, v, inv⟩
    rw [hrec] at ih1 ih2 ih3
    dsimp only at ih1 ih2 ih3
    by_cases hok : entryStructOk item = true
    · have herr : importItemErrors n item = [] :=
        (importItemErrors_nil_iff n item).mpr hok
      simp [importScan, herr, hrec, hok, List.filter_cons, ih1, ih2, ih3]
    · have herr : importItemErrors n item ≠ [] := fun hh =>
        hok ((importItemErrors_nil_iff n item).mp hh)
      have hlen : 0 < (importItemErrors n item).length :=
        List.length_pos.mpr herr
      simp only [importScan, hrec]
      rw [if_pos hlen]
      simp [List.filter_cons, hok, herr, ih1, ih2, ih3]

/-! ## Claim theorems -/

/-- C1 counterexample: with a quota-exhausted backing store, `addPerson` of
a valid, non-duplicate record on the empty collection raises the storage
quota error, yet the record remains appended to the in-memory collection —
a failed persist does not leave the live collection unchanged, refuting the
claim's atomicity for persistence failures. -/
theorem C1_counterexample :
    DataManager.addPerson envQuota emptyDM ana =
      (.error ⟨"Armazenamento local cheio. Remova alguns registros.",
        ErrorType.STORAGE_QUOTA_ERROR⟩, ⟨[ana], []⟩) ∧
    emptyDM.persons = [] := by decide

/-- C1 (amended): for addPerson, updatePerson and deletePerson, every
failure raised while the backing store accepts writes (validation,
duplicate, index errors) leaves the in-memory collection unchanged; but
when the persist itself fails, the error propagates with the attempted
change still applied in memory (shown for `addPerson`: the record stays
appended). -/
theorem C1_atomicity_amended :
    (∀ (env : Env) (st : DMState) (p : Person), env.setItemFail = none →
      isError (DataManager.addPerson env st p).1 = true →
      (DataManager.addPerson env st p).2 = st) ∧
    (∀ (env : Env) (st : DMState) (i : Int) (p : Person), env.setItemFail = none →
      isError (DataManager.updatePerson env st i p).1 = true →
      (DataManager.updatePerson env st i p).2 = st) ∧
    (∀ (env : Env) (st : DMState) (i : Int), env.setItemFail = none →
      isError (DataManager.deletePerson env st i).1 = true →
      (DataManager.deletePerson env st i).2 = st) ∧
    (∀ (env : Env) (st : DMState) (p : Person) (f : StorageFailure),
      env.setItemFail = some f →
      (p.validate env.today).isValid = true →
      DataManager.isDuplicate st.persons p (-1) = false →
      isError (DataManager.addPerson env st p).1 = true ∧
      (DataManager.addPerson env st p).2.persons = st.persons ++ [p]) := by
  refine ⟨?_, ?_, ?_, ?_⟩
  · intro env st p hnone herr
    by_cases h1 : (p.validate env.today).isValid = true
    · by_cases h2 : DataManager.isDuplicate st.persons p (-1) = true
      · unfold DataManager.addPerson
        simp [h1, h2]
      · exfalso
        have hs := savePersons_ok env (st.persons ++ [p]) st.backups hnone
        unfold DataManager.addPerson at herr
        simp [h1, h2, hs, isError] at herr
    · unfold DataManager.addPerson
      simp [h1]
  · intro env st i p hnone herr
    by_cases h0 : ((i < 0 || i ≥ (st.persons.length : Int))) = true
    · unfold DataManager.updatePerson
      simp only [h0, if_true]
    · by_cases h1 : (p.validate env.today).isValid = true
      · by_cases h2 : DataManager.isDuplicate st.persons p i = true
        · unfold DataManager.updatePerson
          simp [h0, h1, h2]
        · rcases hg : st.persons[i.toNat]? with _ | orig
          · unfold DataManager.updatePerson
            simp [h0, h1, h2, hg]
          · exfalso
            have hs := savePersons_ok env
              (st.persons.set i.toNat
                { p with
                  id := orig.id
                  createdAt := orig.createdAt
                  updatedAt := env.now }) st.backups hnone
            unfold DataManager.updatePerson at herr
            simp [h0, h1, h2, hg, hs, isError] at herr
      · unfold DataManager.updatePerson
        simp [h0, h1]
  · intro env st i hnone herr
    by_cases h0 : ((i < 0 || i ≥ (st.persons.length : Int))) = true
    · unfold DataManager.deletePerson
      simp only [h0, if_true]
    · exfalso
      have hs := savePersons_ok env (st.persons.eraseIdx i.toNat) st.backups hnone
      unfold DataManager.deletePerson at herr
      simp [h0, hs, isError] at herr
  · intro env st p f hf h1 h2
    unfold DataManager.addPerson
    rcases hsv : DataManager.savePersons env (st.persons ++ [p]) st.backups with ⟨r, b2⟩
    have hrerr : ∃ e, r = .error e := by
      unfold DataManager.savePersons at hsv
      rw [hf] at hsv
      cases f
      · exact ⟨_, (Prod.mk.injEq _ _ _ _ ▸ hsv).1.symm⟩
      · exact ⟨_, (Prod.mk.injEq _ _ _ _ ▸ hsv).1.symm⟩
    obtain ⟨e, rfl⟩ := hrerr
    simp [h1, h2, hsv, isError]

/-- C1 witness: adding a duplicate record under a healthy store fails and
leaves the state unchanged. -/
theorem C1_witness :
    (DataManager.addPerson envOk ⟨[ana], []⟩ ana).2 = ⟨[ana], []⟩ :=
  C1_atomicity_amended.1 envOk ⟨[ana], []⟩ ana rfl (by decide)

/-- C2 counterexample: a state holding two records with the same email and
the same phone is reachable from the empty collection through
`replaceAllData`, which performs no duplicate check — refuting the
uniqueness invariant over the claim's full set of reachable states. -/
theorem C2_counterexample :
    ReachableFull (DataManager.replaceAllData envOk emptyDM [ana, ana]).2 ∧
    (DataManager.replaceAllData envOk emptyDM [ana, ana]).2.persons = [ana, ana] ∧
    ¬ UniqueContacts (DataManager.replaceAllData envOk emptyDM [ana, ana]).2.persons := by
  have hp : (DataManager.replaceAllData envOk emptyDM [ana, ana]).2.persons =
      [ana, ana] := by decide
  refine ⟨ReachableFull.replaceAll envOk emptyDM [ana, ana] ReachableFull.empty, hp, ?_⟩
  rw [hp]
  intro hu
  exact ((List.pairwise_cons.mp hu).1 ana (List.mem_singleton.mpr rfl)).1 rfl

/-- C2 (amended): in every state reachable from the empty collection
through the duplicate-checked operations addPerson, updatePerson and
deletePerson alone, no two distinct records share an email or a phone
string; addPerson rejects a record whose email or phone equals an existing
record's, and updatePerson rejects likewise while excluding the updated
index itself. (`replaceAllData` and `restoreFromBackup` perform no
duplicate check and can break the invariant.) -/
theorem C2_uniqueness_amended :
    (∀ st : DMState, ReachableCRUD st → UniqueContacts st.persons) ∧
    (∀ (env : Env) (st : DMState) (p : Person),
      (p.validate env.today).isValid = true →
      DataManager.isDuplicate st.persons p (-1) = true →
      DataManager.addPerson env st p =
        (.error ⟨"Pessoa já cadastrada com este email ou telefone",
          ErrorType.DUPLICATE_ERROR⟩, st)) ∧
    (∀ (env : Env) (st : DMState) (i : Int) (p : Person),
      0 ≤ i → i < (st.persons.length : Int) →
      (p.validate env.today).isValid = true →
      DataManager.isDuplicate st.persons p i = true →
      DataManager.updatePerson env st i p =
        (.error ⟨"Pessoa já cadastrada com este email ou telefone",
          ErrorType.DUPLICATE_ERROR⟩, st)) := by
  refine ⟨?_, ?_, ?_⟩
  · intro st hreach
    induction hreach with
    | empty => exact List.Pairwise.nil
    | add env st p _ ih =>
      rcases addPerson_persons_cases env st p with hc | ⟨hc, hdup⟩
      · rw [UniqueContacts, hc]
        exact ih
      · rw [UniqueContacts, hc]
        exact uniqueContacts_append_single st.persons p ih hdup
    | update env st i p _ ih =>
      rcases updatePerson_persons_cases env st i p with hc | ⟨orig, hg, hdup, hge, hlt, hc⟩
      · rw [UniqueContacts, hc]
        exact ih
      · rw [UniqueContacts, hc]
        have hi : ((i.toNat : Nat) : Int) = i := Int.toNat_of_nonneg hge
        refine uniqueContacts_set st.persons i.toNat _ p rfl rfl ih ?_
        rw [hi]
        exact hdup
    | delete env st i _ ih =>
      rcases deletePerson_persons_cases env st i with hc | hc
      · rw [UniqueContacts, hc]
        exact ih
      · rw [UniqueContacts, hc]
        exact List.Pairwise.sublist (List.eraseIdx_sublist _ _) ih
  · intro env st p h1 h2
    unfold DataManager.addPerson
    simp [h1, h2]
  · intro env st i p hge hlt h1 h2
    have h0 : ((i < 0 || i ≥ (st.persons.length : Int))) = false := by
      simp only [Bool.or_eq_false_iff, decide_eq_false_iff_not, not_lt, not_le]
      exact ⟨hge, hlt⟩
    unfold DataManager.updatePerson
    simp [h0, h1, h2]

/-- C2 witness: the uniqueness invariant at a concretely reached state, and
the duplicate rejection on a concrete email collision. -/
theorem C2_witness :
    UniqueContacts (DataManager.addPerson envOk emptyDM ana).2.persons ∧
    DataManager.addPerson envOk ⟨[ana], []⟩ anaDup =
      (.error ⟨"Pessoa já cadastrada com este email ou telefone",
        ErrorType.DUPLICATE_ERROR⟩, ⟨[ana], []⟩) :=
  ⟨C2_uniqueness_amended.1 _ (ReachableCRUD.add envOk emptyDM ana ReachableCRUD.empty),
    C2_uniqueness_amended.2.1 envOk ⟨[ana], []⟩ anaDup (by decide) (by decide)⟩

/-- C3 counterexample: "31/12/1905" parses to a valid past date whose age in
whole years on 2026-10-11 is exactly 120 (the 121st birthday has not yet
occurred), so the claim says it is valid; `validateBirthDate` nevertheless
returns false because the code compares the bare year difference
(2026 − 1905 = 121 > 120), not whole years. -/
theorem C3_counterexample :
    parseBrazilianDate "31/12/1905" = some ⟨1905, 12, 31⟩ ∧
    dateAfter ⟨1905, 12, 31⟩ sampleToday = false ∧
    spec_ageInWholeYears sampleToday ⟨1905, 12, 31⟩ = 120 ∧
    validateBirthDate sampleToday "31/12/1905" = false := by decide

/-- C3 (amended): for every string that parses as a valid DD/MM/YYYY
calendar date, `validateBirthDate` returns true exactly when the date is
not strictly after today and the calendar-year difference
`today.year − birth.year` is at most 120 — the age bound uses the bare year
difference, not age in whole years. A birth date equal to today, or on
today's date 120 years earlier, is therefore valid. -/
theorem C3_birthdate_amended : ∀ (today : SimpleDate) (s : String) (b : SimpleDate),
    parseBrazilianDate s = some b →
    (validateBirthDate today s = true ↔
      dateAfter b today = false ∧ (today.year : Int) - (b.year : Int) ≤ 120) := by
  intro today s b h
  unfold validateBirthDate
  by_cases h0 : s = ""
  · rw [h0] at h
    unfold parseBrazilianDate at h
    simp at h
  · rw [if_neg h0, h]
    dsimp only
    by_cases h1 : dateAfter b today = true
    · rw [if_pos h1]
      simp [h1]
    · rw [if_neg h1]
      by_cases h2 : (today.year : Int) - (b.year : Int) > 120
      · rw [if_pos h2]
        constructor
        · intro hf
          exact absurd hf (by simp)
        · rintro ⟨-, hle⟩
          omega
      · rw [if_neg h2]
        constructor
        · intro _
          exact ⟨by simpa using h1, by omega⟩
        · intro _
          rfl

/-- C3 witness: a date with year difference exactly 120 is accepted. -/
theorem C3_witness : validateBirthDate sampleToday "01/01/1906" = true :=
  (C3_birthdate_amended sampleToday "01/01/1906" ⟨1906, 1, 1⟩ (by decide)).mpr
    (by decide)

/-- C4: `validateBirthDate` accepts only strings parsed by
`parseBrazilianDate`, and every successful parse is a strict calendar date:
day in 1–31 and within the month's length, month 1–12, year 1900–2100, with
day/month/year round-tripping exactly through JS date construction; hence
31/02/2023 and 29/02/1990 (not a leap year) are rejected while 29/02/1996
(leap year) is accepted. -/
theorem C4_strict_calendar_date :
    (∀ (today : SimpleDate) (s : String), validateBirthDate today s = true →
      ∃ b, parseBrazilianDate s = some b) ∧
    (∀ (s : String) (b : SimpleDate), parseBrazilianDate s = some b →
      1 ≤ b.day ∧ b.day ≤ 31 ∧ 1 ≤ b.month ∧ b.month ≤ 12 ∧
        1900 ≤ b.year ∧ b.year ≤ 2100 ∧
        jsMakeDate b.year b.month b.day = b ∧
        b.day ≤ daysInMonth b.year b.month) ∧
    validateBirthDate sampleToday "31/02/2023" = false ∧
    validateBirthDate sampleToday "29/02/1990" = false ∧
    validateBirthDate sampleToday "29/02/1996" = true := by
  refine ⟨?_, ?_, by decide, by decide, by decide⟩
  · intro today s h
    unfold validateBirthDate at h
    by_cases h0 : s = ""
    · rw [if_pos h0] at h
      exact absurd h (by simp)
    · rw [if_neg h0] at h
      rcases hp : parseBrazilianDate s with _ | b
      · rw [hp] at h
        exact absurd h (by simp)
      · exact ⟨b, rfl⟩
  · intro s b h
    unfold parseBrazilianDate at h
    by_cases h0 : s = ""
    · rw [if_pos h0] at h
      exact absurd h (by simp)
    · rw [if_neg h0] at h
      rcases hm : matchDDMMYYYY (cleanDateChars s) with _ | dmy
      · rw [hm] at h
        exact absurd h (by simp)
      · obtain ⟨d, m, y⟩ := dmy
        rw [hm] at h
        dsimp only at h
        by_cases c1 : (d < 1 || d > 31) = true
        · rw [if_pos c1] at h
          exact absurd h (by simp)
        · rw [if_neg c1] at h
          by_cases c2 : (m < 1 || m > 12) = true
          · rw [if_pos c2] at h
            exact absurd h (by simp)
          · rw [if_neg c2] at h
            by_cases c3 : (y < 1900 || y > 2100) = true
            · rw [if_pos c3] at h
              exact absurd h (by simp)
            · rw [if_neg c3] at h
              by_cases c4 : ((jsMakeDate y m d).day != d ||
                  (jsMakeDate y m d).month != m ||
                  (jsMakeDate y m d).year != y) = true
              · rw [if_pos c4] at h
                exact absurd h (by simp)
              · rw [if_neg c4] at h
                have hb : jsMakeDate y m d = b := by
                  simpa using h
                simp only [Bool.or_eq_true, decide_eq_true_eq, not_or] at c1 c2 c3
                simp only [Bool.or_eq_true, bne_iff_ne, ne_eq, not_or, not_not] at c4
                have hd4 : (jsMakeDate y m d).day = d := c4.1.1
                have hm4 : (jsMakeDate y m d).month = m := c4.1.2
                have hy4 : (jsMakeDate y m d).year = y := c4.2
                have hbd : b.day = d := by rw [← hb]; exact hd4
                have hbm : b.month = m := by rw [← hb]; exact hm4
                have hby : b.year = y := by rw [← hb]; exact hy4
                have hdim : d ≤ daysInMonth y m := by
                  by_cases hdm : d ≤ daysInMonth y m
                  · exact hdm
                  · unfold jsMakeDate at hm4 hy4
                    rw [if_neg hdm] at hm4 hy4
                    by_cases h12 : m = 12
                    · rw [if_pos h12] at hy4
                      simp at hy4
                    · rw [if_neg h12] at hm4
                      simp at hm4
                refine ⟨by omega, by omega, by omega, by omega, by omega, by omega, ?_, ?_⟩
                · rw [hbd, hbm, hby]
                  exact hb
                · rw [hbd, hbm, hby]
                  exact hdim

/-- C4 witness: the leap-day string parses to a date. -/
theorem C4_witness : ∃ b, parseBrazilianDate "29/02/1996" = some b :=
  C4_strict_calendar_date.1 sampleToday "29/02/1996" (by decide)

/-- C5: deserializing a serialized record (`Person.fromJSON ∘ Person.toJSON`)
restores every field — id, nome, dataNascimento, telefone, email, createdAt
and updatedAt — for every record whose name is upper-case normalized (as
every constructed record's is) and whose id is non-empty (as every
generated id is). -/
theorem C5_serialization_roundtrip : ∀ (freshId : String) (now : Nat) (p : Person),
    jsToUpper p.nome = p.nome → p.id ≠ "" →
    Person.fromJSON freshId now p.toJSON = p := by
  intro freshId now p hnome hid
  obtain ⟨pid, pnome, pd, pt, pe, pc, pu⟩ := p
  unfold Person.fromJSON Person.toJSON Person.construct
  simp only [Option.getD_some, Person.mk.injEq]
  refine ⟨by simp [hid], ?_, trivial, trivial, trivial, trivial, trivial⟩
  by_cases hn : pnome = ""
  · simp [hn]
  · simp only [if_neg hn]
    exact hnome

/-- C5 witness: the round trip at a concrete record. -/
theorem C5_witness : Person.fromJSON "person_1" 0 ana.toJSON = ana :=
  C5_serialization_roundtrip "person_1" 0 ana (by decide) (by decide)

/-- C6: when `updatePerson i newRecord` succeeds (index in range, valid,
non-duplicate replacement, healthy store, clock advanced past the old
record's `updatedAt`), the record at index `i` keeps the original `id` and
`createdAt`, its `updatedAt` is strictly later than before, and every other
index is unchanged. -/
theorem C6_update_preserves_identity :
    ∀ (env : Env) (st : DMState) (i : Nat) (p orig : Person),
      st.persons[i]? = some orig →
      (p.validate env.today).isValid = true →
      DataManager.isDuplicate st.persons p (i : Int) = false →
      env.setItemFail = none →
      orig.updatedAt < env.now →
      ∃ r : Person,
        (DataManager.updatePerson env st (i : Int) p).1 = .ok true ∧
        (DataManager.updatePerson env st (i : Int) p).2.persons[i]? = some r ∧
        r.id = orig.id ∧ r.createdAt = orig.createdAt ∧
        orig.updatedAt < r.updatedAt ∧
        ∀ j : Nat, j ≠ i →
          (DataManager.updatePerson env st (i : Int) p).2.persons[j]? =
            st.persons[j]? := by
  intro env st i p orig hg hval hdup hnone hlt
  have hilen : i < st.persons.length := by
    by_contra hnot
    rw [List.getElem?_eq_none (by omega)] at hg
    exact Option.noConfusion hg
  have hcond : (((i : Int) < 0 || (i : Int) ≥ (st.persons.length : Int))) = false := by
    simp only [Bool.or_eq_false_iff, decide_eq_false_iff_not, not_lt, not_le]
    exact ⟨Int.natCast_nonneg i, by exact_mod_cast hilen⟩
  have hs := savePersons_ok env
    (st.persons.set i { p with id := orig.id, createdAt := orig.createdAt, updatedAt := env.now })
    st.backups hnone
  have heq : DataManager.updatePerson env st (i : Int) p =
      (.ok true, ⟨st.persons.set i { p with id := orig.id, createdAt := orig.createdAt, updatedAt := env.now },
        DataBackup.autoBackup env
          ((st.persons.set i { p with id := orig.id, createdAt := orig.createdAt, updatedAt := env.now }).map
            Person.toJSON) st.backups⟩) := by
    unfold DataManager.updatePerson
    simp only [hcond, Bool.false_eq_true, if_false, hval, Bool.not_true,
      Int.toNat_natCast, hg, hdup, hs]
  refine ⟨{ p with id := orig.id, createdAt := orig.createdAt, updatedAt := env.now },
    by rw [heq], ?_, rfl, rfl, hlt, ?_⟩
  · rw [heq]
    dsimp only
    exact List.getElem?_set_self (by simpa using hilen)
  · intro j hj
    rw [heq]
    dsimp only
    exact List.getElem?_set_ne (fun hh => hj hh.symm)

/-- C6 witness: updating index 0 of a one-record collection. -/
theorem C6_witness :
    ∃ r : Person,
      (DataManager.updatePerson envOk ⟨[ana], []⟩ ((0 : Nat) : Int) bia).1 = .ok true ∧
      (DataManager.updatePerson envOk ⟨[ana], []⟩ ((0 : Nat) : Int) bia).2.persons[(0 : Nat)]? =
        some r ∧
      r.id = ana.id ∧ r.createdAt = ana.createdAt ∧
      ana.updatedAt < r.updatedAt ∧
      ∀ j : Nat, j ≠ 0 →
        (DataManager.updatePerson envOk ⟨[ana], []⟩ ((0 : Nat) : Int) bia).2.persons[j]? =
          ([ana] : List Person)[j]? :=
  C6_update_preserves_identity envOk ⟨[ana], []⟩ 0 bia ana (by decide) (by decide)
    (by decide) rfl (by decide)

/-- C7 counterexample: an import whose single entry has an empty name is
counted as one invalid record, and `importData` rejects the whole import
with a validation error — the validity counts are not merely advisory,
refuting the claim that invalid entries alone never reject an import. -/
theorem C7_counterexample :
    (DataBackup.validateImportData [badImportItem]).validRecords = 0 ∧
    (DataBackup.validateImportData [badImportItem]).invalidRecords = 1 ∧
    DataManager.importData envOk [badImportItem] =
      .error ⟨"Dados inválidos: Registro 1: Nome inválido",
        ErrorType.VALIDATION_ERROR⟩ := by decide

/-- C7 (amended): `validateImportData` checks each entry structurally
(truthy string name, email, phone and a present birth date) and counts
valid and invalid entries exactly; but `importData` rejects the whole
batch with a validation error whenever any entry is invalid, and only an
all-valid import returns the candidate records with the summary. -/
theorem C7_import_amended :
    (∀ data : List PersonJSON,
      (DataBackup.validateImportData data).validRecords =
        (data.filter entryStructOk).length ∧
      (DataBackup.validateImportData data).invalidRecords =
        (data.filter (fun x => !entryStructOk x)).length ∧
      ((DataBackup.validateImportData data).isValid = true ↔
        data.all entryStructOk = true)) ∧
    (∀ (env : Env) (data : List PersonJSON),
      DataManager.importData env data =
        (if (DataBackup.validateImportData data).isValid then
          .ok (data.map (Person.fromJSON env.freshId env.now),
            DataBackup.validateImportData data)
        else
          .error ⟨"Dados inválidos: " ++
            String.intercalate ", " (DataBackup.validateImportData data).errors,
            ErrorType.VALIDATION_ERROR⟩)) := by
  constructor
  · intro data
    obtain ⟨hs1, hs2, hs3⟩ := importScan_spec data 0
    rcases hrec : importScan 0 data with ⟨es, v, inv⟩
    rw [hrec] at hs1 hs2 hs3
    dsimp only at hs1 hs2 hs3
    unfold DataBackup.validateImportData
    rw [hrec]
    refine ⟨hs1, hs2, ?_⟩
    dsimp only
    rw [← hs3]
    simp [List.length_eq_zero]
  · intro env data
    unfold DataManager.importData
    by_cases hv : (DataBackup.validateImportData data).isValid = true
    · rw [if_pos hv]
      simp [hv]
    · rw [if_neg hv]
      simp only [Bool.not_eq_true] at hv
      simp [hv]

/-- C7 witness: the counts at a concrete single-entry import. -/
theorem C7_witness :
    (DataBackup.validateImportData [badImportItem]).validRecords =
      ([badImportItem].filter entryStructOk).length :=
  (C7_import_amended.1 [badImportItem]).1

/-- C8: `validatePhone` returns true exactly when the input's digits (after
stripping all non-digit characters) number exactly 10 or 11 and the first
two digits, read as a number, lie in [11, 99]; hence "(11) 99999-9999" and
"11999999999" are valid while "123456789" and "(01) 99999-9999" are not. -/
theorem C8_validatePhone_characterization :
    (∀ s : String, validatePhone s = true ↔
      (((specPhoneDigits s).length = 10 ∨ (specPhoneDigits s).length = 11) ∧
        11 ≤ specPhoneAreaCode s ∧ specPhoneAreaCode s ≤ 99)) ∧
    validatePhone "(11) 99999-9999" = true ∧
    validatePhone "11999999999" = true ∧
    validatePhone "123456789" = false ∧
    validatePhone "(01) 99999-9999" = false := by
  refine ⟨fun s => ?_, by decide, by decide, by decide, by decide⟩
  unfold validatePhone specPhoneAreaCode specPhoneDigits
  by_cases h0 : s = ""
  · subst h0
    simp
  · rw [if_neg h0]
    simp only []
    by_cases h1 : ((s.toList.filter Char.isDigit).length != 10 &&
        (s.toList.filter Char.isDigit).length != 11) = true
    · rw [if_pos h1]
      simp only [Bool.and_eq_true, bne_iff_ne, ne_eq, String.toList] at h1
      simp [h1.1, h1.2]
    · rw [if_neg h1]
      simp only [Bool.and_eq_true, bne_iff_ne, ne_eq, not_and, not_not] at h1
      by_cases h2 : (digitsToNat ((s.toList.filter Char.isDigit).take 2) < 11 ||
          99 < digitsToNat ((s.toList.filter Char.isDigit).take 2)) = true
      · rw [if_pos h2]
        simp only [Bool.or_eq_true, decide_eq_true_eq] at h2
        constructor
        · intro hh
          exact absurd hh (by simp)
        · rintro ⟨-, hlo, hhi⟩
          omega
      · rw [if_neg h2]
        simp only [Bool.or_eq_true, decide_eq_true_eq, not_or, not_lt] at h2
        constructor
        · intro _
          refine ⟨?_, h2.1, h2.2⟩
          by_cases hl : (s.toList.filter Char.isDigit).length = 10
          · exact Or.inl hl
          · exact Or.inr (h1 hl)
        · intro _
          rfl

/-- C9: restoring the backup just created over any data array returns data
equal to the original (the fresh snapshot sits at the head of the stored
history and its checksum recomputes identically), while restoring a
snapshot whose stored data was tampered with after creation — so the
recomputed checksum differs from the stored one — raises the corruption
error ("Backup corrompido - checksum inválido"). -/
theorem C9_backup_roundtrip :
    (∀ (env : Env) (data : List PersonJSON) (backups : List Snapshot)
        (bid : String) (bs : List Snapshot),
      env.setItemFail = none →
      DataBackup.createBackup env data backups = .ok (bid, bs) →
      DataBackup.restoreBackup bs bid = .ok data) ∧
    DataBackup.restoreBackup [tamperedSnapshot] "backup_1" =
      .error ⟨"Backup corrompido - checksum inválido",
        ErrorType.STORAGE_ERROR⟩ := by
  constructor
  · intro env data backups bid bs hnone hcb
    unfold DataBackup.createBackup at hcb
    rw [hnone] at hcb
    simp only [Except.ok.injEq, Prod.mk.injEq] at hcb
    obtain ⟨hbid, hbs⟩ := hcb
    subst hbid
    by_cases hlen : ((⟨env.freshBackupId, env.nowIso, data, "1.0",
        calculateChecksum data⟩ : Snapshot) :: backups).length > 5
    · rw [if_pos hlen, List.take_succ_cons] at hbs
      rw [← hbs]
      unfold DataBackup.restoreBackup
      rw [List.find?_cons_of_pos _ (by simp)]
      simp
    · rw [if_neg hlen] at hbs
      rw [← hbs]
      unfold DataBackup.restoreBackup
      rw [List.find?_cons_of_pos _ (by simp)]
      simp
  · decide

/-- C9 witness: round trip of a concrete one-record data array through
createBackup and restoreBackup. -/
theorem C9_witness :
    DataBackup.restoreBackup
      [⟨"backup_1", "2026-10-11T00:00:00.000Z", [ana.toJSON], "1.0",
        calculateChecksum [ana.toJSON]⟩] "backup_1" = .ok [ana.toJSON] :=
  C9_backup_roundtrip.1 envOk [ana.toJSON] [] "backup_1" _ rfl rfl

/-- C10: `getAllPersons` and `searchPersons` allocate a fresh array on
every call: its reference differs from the manager's internal one, its
contents are the internal records, and overwriting the returned array (an
insertion or removal) leaves the internal collection unchanged — a
subsequent `getAllPersons` still returns the unmodified records. -/
theorem C10_fresh_arrays :
    ∀ (h : Heap) (dm : DMRef) (mutated : List Person) (q : String),
      dm.ref < h.length →
      ((DataManager.getAllPersonsH h dm).1 ≠ dm.ref ∧
        hRead (DataManager.getAllPersonsH h dm).2
            (DataManager.getAllPersonsH h dm).1 = hRead h dm.ref ∧
        hRead (hWrite (DataManager.getAllPersonsH h dm).2
            (DataManager.getAllPersonsH h dm).1 mutated) dm.ref = hRead h dm.ref ∧
        hRead
            (DataManager.getAllPersonsH (hWrite (DataManager.getAllPersonsH h dm).2
              (DataManager.getAllPersonsH h dm).1 mutated) dm).2
            (DataManager.getAllPersonsH (hWrite (DataManager.getAllPersonsH h dm).2
              (DataManager.getAllPersonsH h dm).1 mutated) dm).1 = hRead h dm.ref) ∧
      ((DataManager.searchPersonsH h dm q).1 ≠ dm.ref ∧
        hRead (hWrite (DataManager.searchPersonsH h dm q).2
            (DataManager.searchPersonsH h dm q).1 mutated) dm.ref = hRead h dm.ref) := by
  intro h dm mutated q hlt
  have hga : DataManager.getAllPersonsH h dm = (h.length, h ++ [hRead h dm.ref]) := rfl
  have hne : h.length ≠ dm.ref := by omega
  have h3 : hRead (hWrite (h ++ [hRead h dm.ref]) h.length mutated) dm.ref =
      hRead h dm.ref := by
    rw [hRead_write_ne _ _ _ _ hne, hRead_append_lt _ _ _ hlt]
  refine ⟨⟨by rw [hga]; exact hne, by rw [hga]; exact hRead_append_self h _,
    by rw [hga]; exact h3, ?_⟩, ?_⟩
  · rw [hga]
    have hga2 : DataManager.getAllPersonsH
        (hWrite (h ++ [hRead h dm.ref]) h.length mutated) dm =
        ((hWrite (h ++ [hRead h dm.ref]) h.length mutated).length,
          hWrite (h ++ [hRead h dm.ref]) h.length mutated ++
            [hRead (hWrite (h ++ [hRead h dm.ref]) h.length mutated) dm.ref]) := rfl
    rw [hga2, hRead_append_self, h3]
  · unfold DataManager.searchPersonsH
    by_cases hq : q = ""
    · rw [if_pos hq, hga]
      exact ⟨hne, h3⟩
    · rw [if_neg hq]
      dsimp only [hAlloc]
      refine ⟨hne, ?_⟩
      rw [hRead_write_ne _ _ _ _ hne, hRead_append_lt _ _ _ hlt]

/-- C10 witness: a one-array heap holding the manager's collection. -/
theorem C10_witness :
    (((DataManager.getAllPersonsH [[ana]] ⟨0⟩).1 ≠ (0 : Nat) ∧
      hRead (DataManager.getAllPersonsH [[ana]] ⟨0⟩).2
          (DataManager.getAllPersonsH [[ana]] ⟨0⟩).1 = hRead [[ana]] 0 ∧
      hRead (hWrite (DataManager.getAllPersonsH [[ana]] ⟨0⟩).2
          (DataManager.getAllPersonsH [[ana]] ⟨0⟩).1 []) 0 = hRead [[ana]] 0 ∧
      hRead
          (DataManager.getAllPersonsH (hWrite (DataManager.getAllPersonsH [[ana]] ⟨0⟩).2
            (DataManager.getAllPersonsH [[ana]] ⟨0⟩).1 []) ⟨0⟩).2
          (DataManager.getAllPersonsH (hWrite (DataManager.getAllPersonsH [[ana]] ⟨0⟩).2
            (DataManager.getAllPersonsH [[ana]] ⟨0⟩).1 []) ⟨0⟩).1 = hRead [[ana]] 0) ∧
     ((DataManager.searchPersonsH [[ana]] ⟨0⟩ "ana").1 ≠ (0 : Nat) ∧
      hRead (hWrite (DataManager.searchPersonsH [[ana]] ⟨0⟩ "ana").2
          (DataManager.searchPersonsH [[ana]] ⟨0⟩ "ana").1 []) 0 = hRead [[ana]] 0)) :=
  C10_fresh_arrays [[ana]] ⟨0⟩ [] "ana" (by decide)

end PeopleRegistry
